import Mathlib

/-!
Verification development for the AetherX disaster-response dashboard.

The definitions below are shallow embeddings of the TypeScript source in
src/frontend-react.  JavaScript numbers are modelled as exact rationals
(the inputs exercised here are exactly representable doubles, on which the
JS operations used are exact), JS strings as Lean strings restricted to
ASCII, and the remote backend of the Resource Allocation Engine — whose
implementation is not part of this repository — is modelled from the spec
where a claim depends on it (each such definition says so in its doc
comment).
-/

namespace AetherX

/-! ## JS number helpers (exact-rational model) -/

/-- JS Math.round: rounds half toward positive infinity. -/
def jsRound (x : ℚ) : ℤ := ⌊x + 1/2⌋

/-- JS truncation toward zero, as used by the % operator. -/
def jsTrunc (x : ℚ) : ℤ := if 0 ≤ x then ⌊x⌋ else -⌊-x⌋

/-- JS remainder a % b (sign follows the dividend). -/
def jsMod (a b : ℚ) : ℚ := a - b * (jsTrunc (a / b) : ℚ)

/-! ## src/frontend-react/src/utils/mapUtils.ts -/

/-- JS String.prototype.toLowerCase on an ASCII character. -/
def jsToLowerChar (c : Char) : Char :=
  if 'A' ≤ c ∧ c ≤ 'Z' then Char.ofNat (c.toNat + 32) else c

/-- JS String.prototype.toLowerCase on an ASCII string. -/
def jsToLower (s : String) : String := String.mk (s.data.map jsToLowerChar)

/-- Embedding of getResourceStatusColor (mapUtils.ts, lines 27-40):
switch on status.toLowerCase() with cases for the strings
"available", "deployed", "returning" and "en route", default gray. -/
def getResourceStatusColor (status : String) : String :=
  if jsToLower status = "available" then "#22c55e"
  else if jsToLower status = "deployed" then "#ef4444"
  else if jsToLower status = "returning" then "#eab308"
  else if jsToLower status = "en route" then "#3b82f6"
  else "#6b7280"

/-- Embedding of the line computing the minutes component of formatETA
(mapUtils.ts, line 106): Math.round(minutes % 60). -/
def etaMinsComponent (minutes : ℚ) : ℤ := jsRound (jsMod minutes 60)

/-- Embedding of formatETA (mapUtils.ts, lines 103-108). -/
def formatETA (minutes : ℚ) : String :=
  if minutes < 60 then toString (jsRound minutes) ++ "m"
  else toString (⌊minutes / 60⌋) ++ "h " ++ toString (etaMinsComponent minutes) ++ "m"

/-! ## src/frontend-react/src/components/Dashboard/WeatherWidget.tsx -/

/-- Payload returned by the weather API; its fields are irrelevant to the
caching logic, one representative field suffices. -/
structure WeatherData where
  temp : ℤ
  deriving DecidableEq

/-- Shape of the localStorage cache entry (WeatherWidget.tsx, lines 9-13). -/
structure CachedWeather where
  data : WeatherData
  timestamp : ℤ
  city : String
  deriving DecidableEq

/-- CACHE_DURATION = 5 * 60 * 1000 ms (WeatherWidget.tsx, line 7). -/
def CACHE_DURATION : ℤ := 5 * 60 * 1000

/-- Embedding of getCachedWeather (WeatherWidget.tsx, lines 31-46).
The stored localStorage value is modelled as: none when the key is
absent, some (Except.error e) when JSON.parse throws (the catch branch
returns null), some (Except.ok c) when it parses to entry c.  now is
Date.now() in ms. -/
def getCachedWeather (stored : Option (Except String CachedWeather))
    (city : String) (now : ℤ) : Option WeatherData :=
  match stored with
  | none => none
  | some (Except.error _) => none
  | some (Except.ok c) =>
      if c.city = city ∧ now - c.timestamp < CACHE_DURATION then some c.data
      else none

/-! ## Coordinates and distance
src/frontend-react/src/components/ResourceSidebar.tsx, lines 94-98 -/

/-- A latitude/longitude pair in degrees, as carried by resources and
zones.  Coordinates in the repository are JS numbers; the rationals here
are exact on the inputs considered. -/
structure Coord where
  lat : ℚ
  lng : ℚ
  deriving DecidableEq

/-- Embedding of the distance used for proximity ranking in
handleAnalyzeSituation (ResourceSidebar.tsx, line 96):
Math.sqrt((r.lat - z.lat)^2 + (r.lng - z.lng)^2) * 111. -/
noncomputable def resourceZoneDistance (r z : Coord) : ℝ :=
  Real.sqrt (((r.lat : ℝ) - (z.lat : ℝ)) ^ 2 + ((r.lng : ℝ) - (z.lng : ℝ)) ^ 2) * 111

/-- Degrees to radians. -/
noncomputable def deg2rad (d : ℝ) : ℝ := d * Real.pi / 180

/-- Modelled from the spec: the haversine great-circle distance on a
spherical Earth of radius 6371 km that section 4.1 prescribes for the
Geospatial Distance Calculator (whose backend implementation is not in
this repository). -/
noncomputable def specHaversineDistance (a b : Coord) : ℝ :=
  2 * 6371 *
    Real.arcsin (Real.sqrt
      (Real.sin ((deg2rad (b.lat : ℝ) - deg2rad (a.lat : ℝ)) / 2) ^ 2 +
        Real.cos (deg2rad (a.lat : ℝ)) * Real.cos (deg2rad (b.lat : ℝ)) *
          Real.sin ((deg2rad (b.lng : ℝ) - deg2rad (a.lng : ℝ)) / 2) ^ 2))

/-- A coordinate viewed as a point of the Euclidean plane (degree space). -/
noncomputable def coordPoint (a : Coord) : EuclideanSpace ℝ (Fin 2) :=
  ![(a.lat : ℝ), (a.lng : ℝ)]

/-! ## Resource Allocation Engine data model
Entity shapes from src/frontend-react/src/pages/HelpDesk.tsx (lines
380-421) and spec section 3; the engine itself lives in a backend that is
not part of this repository, so its operations below are modelled from
the spec. -/

/-- Closed resource-type enum (spec section 3, section 9). -/
inductive ResourceType
  | Ambulance
  | Helicopter
  | FireTruck
  | Police
  | NDRFTeam
  | RescueTeam
  | SupplyTruck
  | MedicalTeam
  deriving DecidableEq

/-- Resource status (spec section 3). -/
inductive ResourceStatus
  | Available
  | EnRoute
  | Deployed
  | Returning
  deriving DecidableEq

/-- Zone status (spec section 3). -/
inductive ZoneStatus
  | Active
  | Processing
  | Resolved
  deriving DecidableEq

/-- A deployable unit (HelpDesk.tsx lines 385-393; spec section 3).  The
specialization tags are drawn from the closed type enum, per the
translation-table note of spec section 9. -/
structure Resource where
  id : String
  type : ResourceType
  location : Coord
  capacity : ℤ
  status : ResourceStatus
  specialization : List ResourceType
  speed_kmh : ℚ
  deriving DecidableEq

/-- A disaster zone (HelpDesk.tsx lines 395-404; spec section 3).
required_resources is the type-to-count mapping, as an association list. -/
structure DisasterZone where
  id : String
  severity : ℤ
  location : Coord
  affected_population : ℤ
  vulnerability_score : ℚ
  required_resources : List (ResourceType × ℕ)
  status : ZoneStatus
  deriving DecidableEq

/-- One resource-to-zone assignment (HelpDesk.tsx lines 406-412). -/
structure Allocation where
  resource_id : String
  zone_id : String
  eta_minutes : ℚ
  distance_km : ℚ
  explanation : String
  deriving DecidableEq

/-- A plan (HelpDesk.tsx lines 414-421).  computation_time_ms is
diagnostic only (spec section 3) and carries no information in this
timeless embedding. -/
structure AllocationPlan where
  allocations : List Allocation
  unallocated_resources : List String
  unserved_zones : List String
  total_score : ℚ
  computation_time_ms : ℚ
  ai_rationale : Option String
  deriving DecidableEq

/-- The Resource and Zone Registry backing store (spec section 4.2). -/
structure Registry where
  resources : List Resource
  zones : List DisasterZone
  deriving DecidableEq

/-! ## Allocation Planner
Modelled from the spec (section 4.3): the planner implementation is in
the backend, which is not part of this repository.  The distance function
is a parameter: every claim proved below about the planner holds for any
distance function, so nothing depends on the choice. -/

/-- Step 1 plus the error-conditions rule of spec section 4.3: only
Available, well-formed (positive speed and capacity) resources are
considered. -/
def eligible (r : Resource) : Bool :=
  decide (r.status = ResourceStatus.Available) &&
    decide (0 < r.speed_kmh) && decide (0 < r.capacity)

/-- Step 2 ordering: severity descending, affected population descending,
id ascending. -/
def zoneBefore (z w : DisasterZone) : Bool :=
  if z.severity = w.severity then
    if z.affected_population = w.affected_population then decide (z.id ≤ w.id)
    else decide (w.affected_population < z.affected_population)
  else decide (w.severity < z.severity)

/-- Insertion step of the deterministic zone sort. -/
def insertZone (z : DisasterZone) : List DisasterZone → List DisasterZone
  | [] => [z]
  | w :: ws => if zoneBefore z w then z :: w :: ws else w :: insertZone z ws

/-- Deterministic insertion sort of zones by priority (step 2). -/
def sortZones (zs : List DisasterZone) : List DisasterZone :=
  zs.foldr insertZone []

/-- Step 3a compatibility: exact type match, or the resource's
specialization set includes the required capability. -/
def compatible (r : Resource) (t : ResourceType) : Bool :=
  decide (r.type = t) || r.specialization.contains t

/-- Step 3b choice among candidates: nearest, tie-break by lowest id. -/
def chooseBest (dist : Coord → Coord → ℚ) (z : DisasterZone) :
    List Resource → Option Resource
  | [] => none
  | r :: rs =>
    match chooseBest dist z rs with
    | none => some r
    | some s =>
        if dist r.location z.location < dist s.location z.location then some r
        else if dist r.location z.location = dist s.location z.location ∧ r.id < s.id
          then some r
        else some s

/-- Steps 3a-3b: the selected resource for one requirement slot. -/
def selectNearest (dist : Coord → Coord → ℚ) (z : DisasterZone)
    (t : ResourceType) (pool : List Resource) : Option Resource :=
  chooseBest dist z (pool.filter (fun r => compatible r t))

/-- Step 3d: the produced allocation, with the load-bearing explanation
format.  eta follows spec section 4.1 (pool members have positive speed). -/
def mkAllocation (dist : Coord → Coord → ℚ) (r : Resource) (z : DisasterZone) :
    Allocation :=
  { resource_id := r.id
  , zone_id := z.id
  , eta_minutes := dist r.location z.location / r.speed_kmh * 60
  , distance_km := dist r.location z.location
  , explanation := "Proximity: " ++ toString (dist r.location z.location) ++ "km" }

/-- Step 3 inner loop: fill up to n slots of type t for zone z from the
pool.  Returns the produced allocations, the remaining pool (each chosen
resource is removed, spec invariant of section 3 making ids unique in the
pool), and the number of unmet slots. -/
def allocSlots (dist : Coord → Coord → ℚ) (z : DisasterZone) (t : ResourceType) :
    ℕ → List Resource → List Allocation × List Resource × ℕ
  | 0, pool => ([], pool, 0)
  | n + 1, pool =>
    match selectNearest dist z t pool with
    | none => ([], pool, n + 1)
    | some r =>
        let rest := allocSlots dist z t n (pool.filter (fun x => decide (x.id ≠ r.id)))
        (mkAllocation dist r z :: rest.1, rest.2.1, rest.2.2)

/-- Step 3 over all required resource types of one zone. -/
def allocZone (dist : Coord → Coord → ℚ) (z : DisasterZone) :
    List (ResourceType × ℕ) → List Resource → List Allocation × List Resource × ℕ
  | [], pool => ([], pool, 0)
  | tn :: reqs, pool =>
      let first := allocSlots dist z tn.1 tn.2 pool
      let rest := allocZone dist z reqs first.2.1
      (first.1 ++ rest.1, rest.2.1, first.2.2 + rest.2.2)

/-- Steps 3-4 over all zones in priority order; the third component
records, per zone, its number of unmet slots. -/
def allocZones (dist : Coord → Coord → ℚ) :
    List DisasterZone → List Resource →
      List Allocation × List Resource × List (DisasterZone × ℕ)
  | [], pool => ([], pool, [])
  | z :: zs, pool =>
      let zr := allocZone dist z z.required_resources pool
      let rest := allocZones dist zs zr.2.1
      (zr.1 ++ rest.1, rest.2.1, (z, zr.2.2) :: rest.2.2)

/-- Total required count of a zone. -/
def requiredTotal (z : DisasterZone) : ℕ :=
  (z.required_resources.map (fun tn => tn.2)).sum

/-- Step 5 scoring: severity times served fraction for served zones,
minus severity * 2 for each unserved zone. -/
def planScore (info : List (DisasterZone × ℕ)) : ℚ :=
  info.foldl
    (fun acc zi =>
      if zi.2 = 0 then
        acc + (zi.1.severity : ℚ) * ((requiredTotal zi.1 : ℚ) / (requiredTotal zi.1 : ℚ))
      else acc - (zi.1.severity : ℚ) * 2)
    0

/-- Modelled from the spec: plan() of section 4.3 (backend not in this
repository).  Deterministic greedy severity-first matching over a
snapshot. -/
def plan (dist : Coord → Coord → ℚ) (resources : List Resource)
    (zones : List DisasterZone) : AllocationPlan :=
  let pool := resources.filter eligible
  let result := allocZones dist (sortZones zones) pool
  { allocations := result.1
  , unallocated_resources := result.2.1.map Resource.id
  , unserved_zones :=
      ((result.2.2.filter (fun zi => decide (zi.2 ≠ 0))).map (fun zi => zi.1.id))
  , total_score := planScore result.2.2
  , computation_time_ms := 0
  , ai_rationale := none }

/-! ## Dispatch Coordinator
Modelled from the spec (section 4.4): backend not in this repository. -/

/-- The dispatch summary (spec section 4.4). -/
structure DispatchResult where
  status : String
  message : String
  committed_count : ℕ
  dropped_count : ℕ
  deriving DecidableEq

/-- Commit-time revalidation: the allocation's resource still exists and
is still Available (spec section 4.4). -/
def allocValid (reg : Registry) (a : Allocation) : Bool :=
  reg.resources.any
    (fun r => decide (r.id = a.resource_id) && decide (r.status = ResourceStatus.Available))

/-- Modelled from the spec: dispatch() of section 4.4 (backend not in
this repository).  Stale allocations are dropped and counted; surviving
allocations move their resource to EnRoute and their zone to Processing. -/
def dispatch (p : AllocationPlan) (reg : Registry) : DispatchResult × Registry :=
  let surviving := p.allocations.filter (allocValid reg)
  let newResources := reg.resources.map
    (fun r =>
      if surviving.any (fun a => decide (a.resource_id = r.id)) then
        { r with status := ResourceStatus.EnRoute }
      else r)
  let newZones := reg.zones.map
    (fun z =>
      if surviving.any (fun a => decide (a.zone_id = z.id)) then
        { z with status := ZoneStatus.Processing }
      else z)
  ( { status := "success"
    , message := "dispatch committed"
    , committed_count := surviving.length
    , dropped_count := (p.allocations.filter (fun a => !allocValid reg a)).length }
  , { resources := newResources, zones := newZones } )

/-! ## Reinforcement Handler
Modelled from the spec (section 4.5): backend not in this repository. -/

/-- One synthesized Available resource near a zone. -/
def synthResource (z : DisasterZone) (t : ResourceType) (k : ℕ) : Resource :=
  { id := z.id ++ "-reinforcement-" ++ toString k
  , type := t
  , location := z.location
  , capacity := 10
  , status := ResourceStatus.Available
  , specialization := []
  , speed_kmh := 60 }

/-- The resources synthesized for one zone: a mix weighted toward its
required-resource counts (spec section 4.5). -/
def reinforcementsFor (z : DisasterZone) : List Resource :=
  z.required_resources.foldr
    (fun tn acc => (List.range tn.2).map (synthResource z tn.1) ++ acc) []

/-- Modelled from the spec: reinforce() of section 4.5 (backend not in
this repository).  Inserts synthesized resources into the Registry and
reports how many were added; it performs no planning. -/
def reinforce (zoneIds : List String) (reg : Registry) : Registry × ℕ :=
  let newRs := zoneIds.foldr
    (fun zid acc =>
      match reg.zones.find? (fun z => decide (z.id = zid)) with
      | some z => reinforcementsFor z ++ acc
      | none => acc) []
  ({ reg with resources := reg.resources ++ newRs }, newRs.length)

/-! ## API calls issued by the frontend
The React pages talk to the engine through the api-layer functions of
HelpDesk.tsx (lines 423-520): allocateResources, dispatchResources,
requestReinforcements, createResource, deleteResource, deleteResourcesBulk
and deleteDisaster.  A frontend handler is embedded as the list of API
calls it issues; the effect of each call on the Registry follows the spec
(the backend serving them is not in this repository). -/

inductive ApiCall
  | allocate (resources : List Resource) (zones : List DisasterZone)
  | dispatchCall (p : AllocationPlan)
  | reinforceCall (zoneIds : List String)
  | createResourceCall (r : Resource)
  | deleteResourceCall (id : String)
  | bulkDeleteCall (ids : List String)
  | deleteZoneCall (id : String)
  deriving DecidableEq

/-- Modelled from the spec: the Registry effect of each backend endpoint
(sections 4.2-4.5 and 5; the backend is not in this repository).  POST
allocate runs the pure plan() on its payload snapshot and mutates
nothing. -/
def apiEffect (c : ApiCall) (reg : Registry) : Registry :=
  match c with
  | ApiCall.allocate _ _ => reg
  | ApiCall.dispatchCall p => (dispatch p reg).2
  | ApiCall.reinforceCall ids => (reinforce ids reg).1
  | ApiCall.createResourceCall r => { reg with resources := reg.resources ++ [r] }
  | ApiCall.deleteResourceCall i =>
      { reg with resources := reg.resources.filter (fun r => decide (r.id ≠ i)) }
  | ApiCall.bulkDeleteCall ids =>
      { reg with resources := reg.resources.filter (fun r => !ids.contains r.id) }
  | ApiCall.deleteZoneCall i =>
      { reg with zones := reg.zones.filter (fun z => decide (z.id ≠ i)) }

/-- Registry state after a sequence of API calls. -/
def runCalls (calls : List ApiCall) (reg : Registry) : Registry :=
  calls.foldl (fun r c => apiEffect c r) reg

/-- A dashboard session: the Registry plus the locally held plan.  Only
an allocate call produces a plan (spec section 4.3); every other call
leaves the held plan alone. -/
structure Session where
  reg : Registry
  currentPlan : Option AllocationPlan

/-- One API call applied to a session, for a fixed planner distance
function. -/
def applyCall (dist : Coord → Coord → ℚ) (c : ApiCall) (s : Session) : Session :=
  match c with
  | ApiCall.allocate rs zs => { reg := apiEffect c s.reg, currentPlan := some (plan dist rs zs) }
  | c => { reg := apiEffect c s.reg, currentPlan := s.currentPlan }

/-- Session state after a sequence of API calls. -/
def runSession (dist : Coord → Coord → ℚ) (calls : List ApiCall) (s : Session) : Session :=
  calls.foldl (fun st c => applyCall dist c st) s

/-! ## Frontend handlers relevant to the claims -/

/-- Embedding of handleDeleteZone (Simulation.tsx, lines 217-250): if the
zone id is not found in local state, nothing is issued; otherwise one
deleteResource call per resource in local state — ALL resources, the
source comments say deliberately so — followed by deleteDisaster. -/
def handleDeleteZoneCalls (resources : List Resource) (zones : List DisasterZone)
    (zoneId : String) : List ApiCall :=
  match zones.find? (fun z => decide (z.id = zoneId)) with
  | none => []
  | some _ =>
      resources.map (fun r => ApiCall.deleteResourceCall r.id) ++
        [ApiCall.deleteZoneCall zoneId]

/-- A resource is tied to a zone by the held plan when some allocation
links them. -/
def tiedTo (p : AllocationPlan) (rid zid : String) : Bool :=
  p.allocations.any (fun a => decide (a.resource_id = rid) && decide (a.zone_id = zid))

/-- Embedding of the Reinforcement workflow guard (ResourceSidebar.tsx,
line 342): the button is rendered only when unserved_zones.length > 0. -/
def reinforceButtonVisible (p : AllocationPlan) : Bool :=
  decide (0 < p.unserved_zones.length)

/-- Embedding of the reinforce button's onClick (ResourceSidebar.tsx,
lines 345-357): it re-checks the guard, issues
requestReinforcements(plan.unserved_zones), then re-triggers onAllocate,
which issues allocate on the page's current snapshot. -/
def reinforceClickCalls (p : AllocationPlan) (snapshot : Registry) : List ApiCall :=
  if 0 < p.unserved_zones.length then
    [ApiCall.reinforceCall p.unserved_zones,
      ApiCall.allocate snapshot.resources snapshot.zones]
  else []

/-- The calls the sidebar can issue through the reinforcement workflow:
none when the button is not rendered. -/
def sidebarReinforceCalls (p : AllocationPlan) (snapshot : Registry) : List ApiCall :=
  if reinforceButtonVisible p then reinforceClickCalls p snapshot else []

/-- Embedding of handleAllocate (Simulation.tsx, lines 190-201): the only
API call issued when generating a plan is allocateResources on the
current snapshot. -/
def simulationGenerateCalls (snapshot : Registry) : List ApiCall :=
  [ApiCall.allocate snapshot.resources snapshot.zones]

/-- Embedding of the Discard button (Simulation.tsx, lines 530-536): its
onClick only clears the locally held plan; it issues no API call. -/
def simulationDiscardCalls : List ApiCall := []

/-- Local session effect of the Discard button: the held plan is
dropped. -/
def discardPlan (s : Session) : Session :=
  { s with currentPlan := none }

/-! ## Pool bookkeeping used by the planner proofs -/

/-- The ids of a resource pool. -/
def poolIds (pool : List Resource) : List String := pool.map Resource.id

/-- Invariant carried by each stage of the greedy matching loop: the
produced allocations draw their resource ids from the incoming pool,
none of those ids survives into the outgoing pool, the outgoing pool ids
come from the incoming ones, and the produced ids are pairwise distinct. -/
def AllocStep (pool : List Resource) (as : List Allocation)
    (pool2 : List Resource) : Prop :=
  (∀ a ∈ as, a.resource_id ∈ poolIds pool) ∧
  (∀ a ∈ as, a.resource_id ∉ poolIds pool2) ∧
  poolIds pool2 ⊆ poolIds pool ∧
  (as.map Allocation.resource_id).Nodup

/-! ## Concrete entities used by witnesses and counterexamples -/

/-- A severity-9 zone z1 at the origin requiring one ambulance. -/
def zoneA : DisasterZone :=
  { id := "z1", severity := 9, location := ⟨0, 0⟩, affected_population := 100
  , vulnerability_score := 1
  , required_resources := [(ResourceType.Ambulance, 1)]
  , status := ZoneStatus.Active }

/-- A second zone z2 away from z1. -/
def zoneB : DisasterZone :=
  { id := "z2", severity := 5, location := ⟨1, 1⟩, affected_population := 50
  , vulnerability_score := 1
  , required_resources := [(ResourceType.Ambulance, 1)]
  , status := ZoneStatus.Active }

/-- An available ambulance r2 located at z2. -/
def resB : Resource :=
  { id := "r2", type := ResourceType.Ambulance, location := ⟨1, 1⟩
  , capacity := 4, status := ResourceStatus.Available
  , specialization := [], speed_kmh := 60 }

/-- A held plan that allocates r2 to z2 (so r2 is tied to z2, not z1). -/
def planB : AllocationPlan :=
  { allocations :=
      [{ resource_id := "r2", zone_id := "z2", eta_minutes := 0
       , distance_km := 0, explanation := "Proximity: 0km" }]
  , unallocated_resources := [], unserved_zones := []
  , total_score := 5, computation_time_ms := 0, ai_rationale := none }

/-- A registry holding zones z1 and z2 and the single resource r2. -/
def regAB : Registry := { resources := [resB], zones := [zoneA, zoneB] }

/-- A plan with one unserved zone, as held by the sidebar. -/
def planUnserved : AllocationPlan :=
  { allocations := [], unallocated_resources := [], unserved_zones := ["z1"]
  , total_score := -18, computation_time_ms := 0, ai_rationale := none }

/-- An allocation referencing a resource id no registry below holds. -/
def staleAlloc : Allocation :=
  { resource_id := "ghost", zone_id := "z1", eta_minutes := 1
  , distance_km := 1, explanation := "Proximity: 1km" }

/-- A plan whose single allocation references a resource the registry no
longer holds as Available. -/
def planStale : AllocationPlan :=
  { allocations := [staleAlloc]
  , unallocated_resources := [], unserved_zones := []
  , total_score := 9, computation_time_ms := 0, ai_rationale := none }

/-- The empty registry. -/
def regEmpty : Registry := { resources := [], zones := [] }

/-! ## Theorems -/

/-! ### C8: getResourceStatusColor -/

/-- C8 counterexample: the enumeration spelling EnRoute (spec section 3)
lowercases to "enroute", which matches no case of the switch — the
default gray branch IS reached on this enum value, refuting the claim as
stated. -/
theorem getResourceStatusColorEnRouteGray :
    getResourceStatusColor "EnRoute" = "#6b7280" := by decide

/-- C8 (amended): for the four status spellings the repository's UI
actually uses — "Available", "Deployed", "Returning" and "En Route"
(MapLegend.tsx lines 109-112) — getResourceStatusColor returns the four
status-specific colors and the default gray branch is unreachable; the
spec spelling "EnRoute" (without the space) instead falls to gray. -/
theorem getResourceStatusColorSpecific :
    getResourceStatusColor "Available" = "#22c55e" ∧
    getResourceStatusColor "Deployed" = "#ef4444" ∧
    getResourceStatusColor "Returning" = "#eab308" ∧
    getResourceStatusColor "En Route" = "#3b82f6" := by decide

/-! ### C9: formatETA -/

theorem jsTrunc_natCast_div_sixty (m : ℕ) : jsTrunc ((m : ℚ) / 60) = (m : ℤ) / 60 := by
  unfold jsTrunc
  rw [if_pos (by positivity)]
  rw [show ((m : ℚ) / 60) = (((m : ℤ) : ℚ) / ((60 : ℕ) : ℚ)) by push_cast; ring]
  exact Rat.floor_intCast_div_natCast (m : ℤ) 60

theorem jsMod_natCast_sixty (m : ℕ) : jsMod (m : ℚ) 60 = (((m : ℤ) % 60 : ℤ) : ℚ) := by
  unfold jsMod
  rw [jsTrunc_natCast_div_sixty, Int.emod_def]
  push_cast
  ring

theorem jsRound_intCast (k : ℤ) : jsRound ((k : ℤ) : ℚ) = k := by
  unfold jsRound
  rw [Int.floor_int_add]
  norm_num

/-- C9 counterexample: at the non-negative input 119.5 minutes (at least
60), formatETA renders the string "1h 60m" — a minutes component of 60 —
refuting the claim as stated.  (Math.round(119.5 % 60) =
Math.round(59.5) = 60.) -/
theorem formatETARendersSixty :
    (60 : ℚ) ≤ 239 / 2 ∧ etaMinsComponent (239 / 2) = 60 ∧
      formatETA (239 / 2) = "1h 60m" := by
  have htr : jsTrunc ((239 : ℚ) / 2 / 60) = 1 := by
    unfold jsTrunc
    rw [if_pos (by norm_num)]
    norm_num
  have hmod : jsMod ((239 : ℚ) / 2) 60 = 119 / 2 := by
    unfold jsMod
    rw [htr]
    norm_num
  have hmins : etaMinsComponent ((239 : ℚ) / 2) = 60 := by
    unfold etaMinsComponent
    rw [hmod]
    unfold jsRound
    norm_num
  refine ⟨by norm_num, hmins, ?_⟩
  unfold formatETA
  rw [if_neg (by norm_num), hmins]
  have hfl : ⌊(239 : ℚ) / 2 / 60⌋ = 1 := by norm_num
  rw [hfl]
  rfl

/-- C9 (amended): for every whole-number minutes value of at least 60,
formatETA decomposes the duration as floor(minutes / 60) hours and a
rendered minutes component equal to minutes mod 60, which is at least 0
and strictly less than 60; on fractional inputs the rounded component can
reach 60 (see the counterexample). -/
theorem formatETADecomposition (m : ℕ) (h : 60 ≤ m) :
    etaMinsComponent (m : ℚ) = (m : ℤ) % 60 ∧
    (0 : ℤ) ≤ (m : ℤ) % 60 ∧ (m : ℤ) % 60 < 60 ∧
    formatETA (m : ℚ) =
      toString (⌊(m : ℚ) / 60⌋) ++ "h " ++ toString ((m : ℤ) % 60) ++ "m" := by
  have hmins : etaMinsComponent (m : ℚ) = (m : ℤ) % 60 := by
    unfold etaMinsComponent
    rw [jsMod_natCast_sixty, jsRound_intCast]
  refine ⟨hmins, Int.emod_nonneg _ (by norm_num), Int.emod_lt_of_pos _ (by norm_num), ?_⟩
  unfold formatETA
  rw [if_neg (by exact_mod_cast not_lt.mpr h), hmins]

/-- C9 witness: the amended decomposition at the concrete input 135. -/
theorem formatETADecomposition_witness :
    60 ≤ 135 ∧
      (etaMinsComponent ((135 : ℕ) : ℚ) = ((135 : ℕ) : ℤ) % 60 ∧
        (0 : ℤ) ≤ ((135 : ℕ) : ℤ) % 60 ∧ ((135 : ℕ) : ℤ) % 60 < 60 ∧
        formatETA ((135 : ℕ) : ℚ) =
          toString (⌊((135 : ℕ) : ℚ) / 60⌋) ++ "h " ++
            toString (((135 : ℕ) : ℤ) % 60) ++ "m") :=
  ⟨by norm_num, formatETADecomposition 135 (by norm_num)⟩

/-! ### C10: getCachedWeather -/

/-- C10: getCachedWeather returns cached data exactly when the stored
entry parsed, its city equals the selected city and its age is strictly
below CACHE_DURATION (5 minutes); in every other case — key absent,
unparseable entry, different city, or expired — it returns null. -/
theorem getCachedWeatherCharacterization
    (stored : Option (Except String CachedWeather)) (city : String)
    (now : ℤ) (d : WeatherData) :
    getCachedWeather stored city now = some d ↔
      ∃ c, stored = some (Except.ok c) ∧ c.city = city ∧
        now - c.timestamp < CACHE_DURATION ∧ d = c.data := by
  cases stored with
  | none => simp [getCachedWeather]
  | some e =>
    cases e with
    | error msg => simp [getCachedWeather]
    | ok c =>
      by_cases hcond : c.city = city ∧ now - c.timestamp < CACHE_DURATION
      · simp only [getCachedWeather, if_pos hcond, Option.some_inj]
        constructor
        · intro hd
          exact ⟨c, rfl, hcond.1, hcond.2, hd.symm⟩
        · rintro ⟨c2, hc2, _, _, hd⟩
          have hcc : c = c2 := by simpa using hc2
          subst hcc
          exact hd.symm
      · simp only [getCachedWeather, if_neg hcond]
        constructor
        · intro hd
          exact Option.noConfusion hd
        · rintro ⟨c2, hc2, h1, h2, _⟩
          have hcc : c = c2 := by simpa using hc2
          subst hcc
          exact absurd ⟨h1, h2⟩ hcond

/-! ### C7: distance symmetry -/

/-- C7: the distance used for resource-to-zone proximity ranking is
symmetric — exactly, hence in particular within the 1e-6 km tolerance. -/
theorem resourceZoneDistanceSymmetric (a b : Coord) :
    resourceZoneDistance a b = resourceZoneDistance b a ∧
      |resourceZoneDistance a b - resourceZoneDistance b a| ≤ 1 / 1000000 := by
  have h : resourceZoneDistance a b = resourceZoneDistance b a := by
    unfold resourceZoneDistance
    ring_nf
  exact ⟨h, by rw [h]; simp⟩

/-! ### C3: the proximity distance is not the haversine -/

/-- C3 counterexample: at the coordinate pair (0,0) and (0,180) the code's
proximity distance is 19980 km (the flat approximation sqrt(dlat^2 +
dlng^2) * 111), while the haversine distance on a 6371 km sphere is
6371 * pi km, an irrational number; the two differ, refuting the claim as
stated. -/
theorem resourceZoneDistanceNotHaversine :
    resourceZoneDistance ⟨0, 0⟩ ⟨0, 180⟩ ≠ specHaversineDistance ⟨0, 0⟩ ⟨0, 180⟩ := by
  have hcode : resourceZoneDistance ⟨0, 0⟩ ⟨0, 180⟩ = 19980 := by
    unfold resourceZoneDistance
    push_cast
    rw [show ((0 : ℝ) - 0) ^ 2 + ((0 : ℝ) - 180) ^ 2 = 180 ^ 2 by norm_num]
    rw [Real.sqrt_sq (by norm_num : (0 : ℝ) ≤ 180)]
    norm_num
  have hhav : specHaversineDistance ⟨0, 0⟩ ⟨0, 180⟩ = 6371 * Real.pi := by
    unfold specHaversineDistance deg2rad
    push_cast
    rw [show ((180 : ℝ) * Real.pi / 180 - 0 * Real.pi / 180) / 2 = Real.pi / 2 by ring]
    rw [show ((0 : ℝ) * Real.pi / 180 - 0 * Real.pi / 180) / 2 = 0 by ring]
    rw [show ((0 : ℝ) * Real.pi / 180) = 0 by ring]
    rw [Real.sin_zero, Real.cos_zero, Real.sin_pi_div_two]
    norm_num
    ring
  rw [hcode, hhav]
  intro h
  have hpi : Real.pi = ((19980 / 6371 : ℚ) : ℝ) := by
    push_cast
    field_simp at h ⊢
    linarith
  exact irrational_pi ⟨(19980 / 6371 : ℚ), hpi.symm⟩

/-- C3 (amended): the distance the frontend computes for proximity
ranking is the flat equirectangular approximation — 111 km per degree of
straight-line offset in latitude/longitude space, i.e. 111 times the
Euclidean plane distance between the coordinate points — not the
haversine great-circle distance on the 6371 km sphere. -/
theorem resourceZoneDistanceIsScaledEuclidean (a b : Coord) :
    resourceZoneDistance a b = 111 * dist (coordPoint a) (coordPoint b) := by
  unfold resourceZoneDistance coordPoint
  rw [EuclideanSpace.dist_eq, Fin.sum_univ_two]
  simp only [Matrix.cons_val_zero, Matrix.cons_val_one, Matrix.head_cons]
  rw [Real.dist_eq, Real.dist_eq, sq_abs, sq_abs]
  ring

/-! ### C1: no double-allocation -/

theorem chooseBest_mem {dist : Coord → Coord → ℚ} {z : DisasterZone} :
    ∀ (l : List Resource) (r : Resource), chooseBest dist z l = some r → r ∈ l := by
  intro l
  induction l with
  | nil => intro r h; simp [chooseBest] at h
  | cons x xs ih =>
    intro r h
    cases hc : chooseBest dist z xs with
    | none =>
      simp only [chooseBest, hc] at h
      cases Option.some_inj.mp h
      exact List.mem_cons_self x xs
    | some s =>
      simp only [chooseBest, hc] at h
      split_ifs at h with h1 h2
      · obtain rfl := Option.some_inj.mp h
        exact List.mem_cons_self x xs
      · obtain rfl := Option.some_inj.mp h
        exact List.mem_cons_self x xs
      · obtain rfl := Option.some_inj.mp h
        exact List.mem_cons_of_mem x (ih s hc)

theorem selectNearest_mem {dist : Coord → Coord → ℚ} {z : DisasterZone}
    {t : ResourceType} {pool : List Resource} {r : Resource}
    (h : selectNearest dist z t pool = some r) : r ∈ pool :=
  List.mem_of_mem_filter (chooseBest_mem _ r h)

theorem poolIds_filter_subset (p : Resource → Bool) (pool : List Resource) :
    poolIds (pool.filter p) ⊆ poolIds pool := by
  intro i hi
  simp only [poolIds, List.mem_map] at hi ⊢
  obtain ⟨x, hx, rfl⟩ := hi
  exact ⟨x, List.mem_of_mem_filter hx, rfl⟩

theorem id_not_in_filtered (r : Resource) (pool : List Resource) :
    r.id ∉ poolIds (pool.filter (fun x => decide (x.id ≠ r.id))) := by
  intro hmem
  simp only [poolIds, List.mem_map, List.mem_filter, decide_eq_true_eq] at hmem
  obtain ⟨x, ⟨_, hne⟩, heq⟩ := hmem
  exact hne heq

theorem allocStep_refl (pool : List Resource) : AllocStep pool [] pool :=
  ⟨fun a ha => absurd ha (List.not_mem_nil a),
   fun a ha => absurd ha (List.not_mem_nil a),
   fun _ hi => hi, List.nodup_nil⟩

theorem allocStep_comp {pool pool1 pool2 : List Resource}
    {as1 as2 : List Allocation}
    (h1 : AllocStep pool as1 pool1) (h2 : AllocStep pool1 as2 pool2) :
    AllocStep pool (as1 ++ as2) pool2 := by
  obtain ⟨a1, b1, c1, d1⟩ := h1
  obtain ⟨a2, b2, c2, d2⟩ := h2
  refine ⟨?_, ?_, fun i hi => c1 (c2 hi), ?_⟩
  · intro a ha
    rcases List.mem_append.mp ha with h | h
    · exact a1 a h
    · exact c1 (a2 a h)
  · intro a ha
    rcases List.mem_append.mp ha with h | h
    · exact fun hmem => b1 a h (c2 hmem)
    · exact b2 a h
  · rw [List.map_append]
    refine d1.append d2 ?_
    intro i hi1 hi2
    obtain ⟨a, ha, rfl⟩ := List.mem_map.mp hi1
    obtain ⟨a2x, ha2, he⟩ := List.mem_map.mp hi2
    exact b1 a ha (he ▸ a2 a2x ha2)

theorem allocSlots_step (dist : Coord → Coord → ℚ) (z : DisasterZone)
    (t : ResourceType) :
    ∀ (n : ℕ) (pool : List Resource),
      AllocStep pool (allocSlots dist z t n pool).1 (allocSlots dist z t n pool).2.1 := by
  intro n
  induction n with
  | zero =>
    intro pool
    simp only [allocSlots]
    exact allocStep_refl pool
  | succ n ih =>
    intro pool
    cases hsel : selectNearest dist z t pool with
    | none =>
      simp only [allocSlots, hsel]
      exact allocStep_refl pool
    | some r =>
      simp only [allocSlots, hsel]
      obtain ⟨ih1, ih2, ih3, ih4⟩ := ih (pool.filter (fun x => decide (x.id ≠ r.id)))
      have hrid : r.id ∈ poolIds pool :=
        List.mem_map_of_mem Resource.id (selectNearest_mem hsel)
      have hrnot : r.id ∉ poolIds (pool.filter (fun x => decide (x.id ≠ r.id))) :=
        id_not_in_filtered r pool
      have hsub1 : poolIds (pool.filter (fun x => decide (x.id ≠ r.id))) ⊆ poolIds pool :=
        poolIds_filter_subset _ pool
      refine ⟨?_, ?_, fun i hi => hsub1 (ih3 hi), ?_⟩
      · intro a ha
        rcases List.mem_cons.mp ha with rfl | ha2
        · exact hrid
        · exact hsub1 (ih1 a ha2)
      · intro a ha
        rcases List.mem_cons.mp ha with rfl | ha2
        · exact fun hmem => hrnot (ih3 hmem)
        · exact ih2 a ha2
      · rw [List.map_cons]
        refine List.nodup_cons.mpr ⟨?_, ih4⟩
        intro hmem
        obtain ⟨a, ha, haid⟩ := List.mem_map.mp hmem
        have hin : (mkAllocation dist r z).resource_id ∈
            poolIds (pool.filter (fun x => decide (x.id ≠ r.id))) := haid ▸ ih1 a ha
        exact hrnot hin

theorem allocZone_step (dist : Coord → Coord → ℚ) (z : DisasterZone) :
    ∀ (reqs : List (ResourceType × ℕ)) (pool : List Resource),
      AllocStep pool (allocZone dist z reqs pool).1 (allocZone dist z reqs pool).2.1 := by
  intro reqs
  induction reqs with
  | nil =>
    intro pool
    simp only [allocZone]
    exact allocStep_refl pool
  | cons tn reqs ih =>
    intro pool
    simp only [allocZone]
    exact allocStep_comp (allocSlots_step dist z tn.1 tn.2 pool) (ih _)

theorem allocZones_step (dist : Coord → Coord → ℚ) :
    ∀ (zs : List DisasterZone) (pool : List Resource),
      AllocStep pool (allocZones dist zs pool).1 (allocZones dist zs pool).2.1 := by
  intro zs
  induction zs with
  | nil =>
    intro pool
    simp only [allocZones]
    exact allocStep_refl pool
  | cons z zs ih =>
    intro pool
    simp only [allocZones]
    exact allocStep_comp (allocZone_step dist z z.required_resources pool) (ih _)

/-- C1: in every AllocationPlan produced by plan(), each resource_id
appears in at most one Allocation — the list of allocated resource ids
has no duplicate, for any distance function and any snapshot. -/
theorem planNoDoubleAllocation (dist : Coord → Coord → ℚ)
    (resources : List Resource) (zones : List DisasterZone) :
    ((plan dist resources zones).allocations.map Allocation.resource_id).Nodup :=
  (allocZones_step dist (sortZones zones) (resources.filter eligible)).2.2.2

/-! ### C4: dispatch summary and dropped allocations -/

theorem length_filter_add_length_filter_not {α : Type} (l : List α) (p : α → Bool) :
    (l.filter p).length + (l.filter (fun a => !p a)).length = l.length := by
  induction l with
  | nil => rfl
  | cons x xs ih =>
    cases hx : p x <;> simp [List.filter_cons, hx] <;> omega

/-- C4: dispatch returns a summary carrying status, message,
committed_count and dropped_count; the committed and dropped allocations
partition the plan, dropped_count counts exactly the allocations whose
resource no longer exists as Available at commit time, and the presence
of any such stale allocation forces dropped_count to be positive — a
stale allocation is never silently ignored. -/
theorem dispatchSurfacesDrops (p : AllocationPlan) (reg : Registry)
    (a : Allocation) (ha : a ∈ p.allocations)
    (hstale : allocValid reg a = false) :
    (dispatch p reg).1.status = "success" ∧
    (dispatch p reg).1.message = "dispatch committed" ∧
    (dispatch p reg).1.committed_count + (dispatch p reg).1.dropped_count
        = p.allocations.length ∧
    (dispatch p reg).1.dropped_count
        = (p.allocations.filter (fun x => !allocValid reg x)).length ∧
    0 < (dispatch p reg).1.dropped_count := by
  refine ⟨rfl, rfl, ?_, rfl, ?_⟩
  · exact length_filter_add_length_filter_not p.allocations (allocValid reg)
  · have hm : a ∈ p.allocations.filter (fun x => !allocValid reg x) :=
      List.mem_filter.mpr ⟨ha, by simp [hstale]⟩
    exact List.length_pos_of_mem hm

/-- C4 witness: a plan whose single allocation references a resource
absent from the registry; its drop is surfaced in dropped_count. -/
theorem dispatchSurfacesDrops_witness :
    staleAlloc ∈ planStale.allocations ∧
    allocValid regEmpty staleAlloc = false ∧
    ((dispatch planStale regEmpty).1.status = "success" ∧
      (dispatch planStale regEmpty).1.message = "dispatch committed" ∧
      (dispatch planStale regEmpty).1.committed_count +
          (dispatch planStale regEmpty).1.dropped_count
          = planStale.allocations.length ∧
      (dispatch planStale regEmpty).1.dropped_count
          = (planStale.allocations.filter
              (fun x => !allocValid regEmpty x)).length ∧
      0 < (dispatch planStale regEmpty).1.dropped_count) :=
  ⟨by simp [planStale], rfl,
    dispatchSurfacesDrops planStale regEmpty staleAlloc
      (by simp [planStale]) rfl⟩

/-! ### C5: reinforcement only for unserved zones, no re-planning -/

/-- C5: the sidebar issues a reinforcement request only when the held
plan's unserved_zones is non-empty and only for exactly those zones; the
reinforcement call itself leaves the held plan untouched (it performs no
re-planning), and the new planning call is a separate allocate call the
caller issues afterward — the workflow's calls are exactly the
reinforcement followed by the re-plan. -/
theorem reinforceOnlyWhenUnserved (p : AllocationPlan) (snapshot : Registry)
    (ids : List String) (dist : Coord → Coord → ℚ) (s : Session)
    (h : ApiCall.reinforceCall ids ∈ sidebarReinforceCalls p snapshot) :
    p.unserved_zones ≠ [] ∧ ids = p.unserved_zones ∧
    (applyCall dist (ApiCall.reinforceCall ids) s).currentPlan = s.currentPlan ∧
    sidebarReinforceCalls p snapshot =
      [ApiCall.reinforceCall p.unserved_zones,
        ApiCall.allocate snapshot.resources snapshot.zones] := by
  by_cases hu : 0 < p.unserved_zones.length
  · have hcalls : sidebarReinforceCalls p snapshot =
        [ApiCall.reinforceCall p.unserved_zones,
          ApiCall.allocate snapshot.resources snapshot.zones] := by
      unfold sidebarReinforceCalls reinforceButtonVisible reinforceClickCalls
      rw [if_pos (by simpa using hu), if_pos hu]
    rw [hcalls] at h
    have hids : ids = p.unserved_zones := by
      rcases List.mem_cons.mp h with h1 | h1
      · injection h1
      · exact absurd (List.mem_singleton.mp h1) (by simp)
    exact ⟨List.ne_nil_of_length_pos hu, hids, rfl, hcalls⟩
  · exfalso
    have hcalls : sidebarReinforceCalls p snapshot = [] := by
      unfold sidebarReinforceCalls reinforceButtonVisible
      rw [if_neg (by simpa using hu)]
    rw [hcalls] at h
    exact List.not_mem_nil _ h

/-- C5 witness: the workflow on a held plan with unserved zone z1 and an
empty snapshot registry. -/
theorem reinforceOnlyWhenUnserved_witness :
    ApiCall.reinforceCall ["z1"] ∈ sidebarReinforceCalls planUnserved regEmpty ∧
    (planUnserved.unserved_zones ≠ [] ∧ ["z1"] = planUnserved.unserved_zones ∧
      (applyCall (fun _ _ => 0) (ApiCall.reinforceCall ["z1"])
          { reg := regEmpty, currentPlan := some planUnserved }).currentPlan
        = ({ reg := regEmpty, currentPlan := some planUnserved } : Session).currentPlan ∧
      sidebarReinforceCalls planUnserved regEmpty =
        [ApiCall.reinforceCall planUnserved.unserved_zones,
          ApiCall.allocate regEmpty.resources regEmpty.zones]) :=
  ⟨by simp [sidebarReinforceCalls, reinforceButtonVisible, reinforceClickCalls,
      planUnserved],
    reinforceOnlyWhenUnserved planUnserved regEmpty ["z1"] (fun _ _ => 0)
      { reg := regEmpty, currentPlan := some planUnserved }
      (by simp [sidebarReinforceCalls, reinforceButtonVisible, reinforceClickCalls,
        planUnserved])⟩

/-! ### C6: discarding a plan has no side effects -/

/-- C6: the generate-then-discard flow of the Simulation page issues no
Registry-mutating call — the Discard button issues no API call at all,
the only call of the flow is the pure allocate, whose registry effect is
the identity — so the resource and zone state after generating and then
discarding a plan is exactly the initial one, and the locally held plan
is cleared. -/
theorem discardedPlanNoSideEffects (dist : Coord → Coord → ℚ)
    (snapshot : Registry) (s : Session) (c : ApiCall)
    (hc : c ∈ simulationGenerateCalls snapshot ++ simulationDiscardCalls) :
    simulationDiscardCalls = ([] : List ApiCall) ∧
    (∀ reg, apiEffect c reg = reg) ∧
    (discardPlan (runSession dist
        (simulationGenerateCalls snapshot ++ simulationDiscardCalls) s)).reg
      = s.reg ∧
    (discardPlan (runSession dist
        (simulationGenerateCalls snapshot ++ simulationDiscardCalls) s)).currentPlan
      = none := by
  have hcall : c = ApiCall.allocate snapshot.resources snapshot.zones := by
    simpa [simulationGenerateCalls, simulationDiscardCalls] using hc
  subst hcall
  exact ⟨rfl, fun _ => rfl, rfl, rfl⟩

/-- C6 witness: the flow run from the registry holding z1, z2 and r2. -/
theorem discardedPlanNoSideEffects_witness :
    ApiCall.allocate regAB.resources regAB.zones ∈
        simulationGenerateCalls regAB ++ simulationDiscardCalls ∧
    (simulationDiscardCalls = ([] : List ApiCall) ∧
      (∀ reg, apiEffect (ApiCall.allocate regAB.resources regAB.zones) reg = reg) ∧
      (discardPlan (runSession (fun _ _ => 0)
          (simulationGenerateCalls regAB ++ simulationDiscardCalls)
          { reg := regAB, currentPlan := none })).reg = regAB ∧
      (discardPlan (runSession (fun _ _ => 0)
          (simulationGenerateCalls regAB ++ simulationDiscardCalls)
          { reg := regAB, currentPlan := none })).currentPlan = none) :=
  ⟨by simp [simulationGenerateCalls, simulationDiscardCalls],
    discardedPlanNoSideEffects (fun _ _ => 0) regAB
      { reg := regAB, currentPlan := none }
      (ApiCall.allocate regAB.resources regAB.zones)
      (by simp [simulationGenerateCalls, simulationDiscardCalls])⟩

/-! ### C2: zone deletion cleanup -/

/-- C2 counterexample: in a registry holding zones z1 and z2 and the
single resource r2 — tied by the held plan to z2, not to the deleted
zone z1 — handleDeleteZone("z1") still deletes r2: the resource list
after the cleanup is empty, so a resource not tied to the deleted zone
does not remain, refuting the claim as stated. -/
theorem deleteZoneRemovesUntiedResource :
    tiedTo planB "r2" "z1" = false ∧
    resB ∈ regAB.resources ∧
    (runCalls (handleDeleteZoneCalls regAB.resources regAB.zones "z1")
        regAB).resources = [] := by
  refine ⟨by decide, by simp [regAB], by decide⟩

theorem runCalls_deleteAll_resources :
    ∀ (ids : List String) (reg : Registry),
      runCalls (ids.map ApiCall.deleteResourceCall) reg =
        { reg with resources :=
            reg.resources.filter (fun r => decide (r.id ∉ ids)) } := by
  intro ids
  induction ids with
  | nil =>
    intro reg
    simp only [List.map_nil, runCalls, List.foldl_nil]
    have hp : (fun (r : Resource) => decide (r.id ∉ ([] : List String)))
        = fun _ => true := by
      funext r
      simp
    rw [hp, List.filter_true]
  | cons i ids ih =>
    intro reg
    simp only [List.map_cons, runCalls, List.foldl_cons]
    have hstep : List.foldl (fun r c => apiEffect c r)
        (apiEffect (ApiCall.deleteResourceCall i) reg)
        (ids.map ApiCall.deleteResourceCall) =
          runCalls (ids.map ApiCall.deleteResourceCall)
            (apiEffect (ApiCall.deleteResourceCall i) reg) := rfl
    rw [hstep, ih]
    simp only [apiEffect]
    congr 1
    rw [List.filter_filter]
    apply List.filter_congr
    intro r _
    by_cases h1 : r.id = i <;> by_cases h2 : r.id ∈ ids <;> simp [h1, h2]

/-- C2 (amended): when the deleted zone id exists in local state, the
cascading cleanup of handleDeleteZone deletes EVERY resource in the
Registry — tied to the deleted zone or not (the source comments this is
deliberate: "Delete ALL resources (not just allocated ones)") — and then
removes exactly that zone, leaving the other zones in place. -/
theorem deleteZoneDeletesAllResources (reg : Registry) (zoneId : String)
    (h : (reg.zones.find? (fun z => decide (z.id = zoneId))).isSome) :
    (runCalls (handleDeleteZoneCalls reg.resources reg.zones zoneId)
        reg).resources = [] ∧
    (runCalls (handleDeleteZoneCalls reg.resources reg.zones zoneId)
        reg).zones = reg.zones.filter (fun z => decide (z.id ≠ zoneId)) := by
  obtain ⟨z0, hz0⟩ := Option.isSome_iff_exists.mp h
  unfold handleDeleteZoneCalls
  rw [hz0]
  have hmm : reg.resources.map (fun r => ApiCall.deleteResourceCall r.id)
      = (reg.resources.map Resource.id).map ApiCall.deleteResourceCall := by
    rw [List.map_map]
    rfl
  rw [hmm]
  unfold runCalls
  rw [List.foldl_append]
  have hinner : List.foldl (fun r c => apiEffect c r) reg
      ((reg.resources.map Resource.id).map ApiCall.deleteResourceCall) =
        runCalls ((reg.resources.map Resource.id).map ApiCall.deleteResourceCall)
          reg := rfl
  rw [hinner, runCalls_deleteAll_resources]
  simp only [List.foldl_cons, List.foldl_nil]
  constructor
  · show reg.resources.filter
        (fun r => decide (r.id ∉ reg.resources.map Resource.id)) = []
    rw [List.filter_eq_nil_iff]
    intro r hr
    simp only [decide_eq_true_eq, Decidable.not_not]
    exact List.mem_map_of_mem Resource.id hr
  · rfl

/-- C2 witness: the amended cleanup behavior at the registry holding z1,
z2 and r2. -/
theorem deleteZoneDeletesAllResources_witness :
    (regAB.zones.find? (fun z => decide (z.id = "z1"))).isSome ∧
    ((runCalls (handleDeleteZoneCalls regAB.resources regAB.zones "z1")
        regAB).resources = [] ∧
      (runCalls (handleDeleteZoneCalls regAB.resources regAB.zones "z1")
        regAB).zones = regAB.zones.filter (fun z => decide (z.id ≠ "z1"))) :=
  ⟨by decide, deleteZoneDeletesAllResources regAB "z1" (by decide)⟩

end AetherX
